import Mathlib

/-!
Verification of the backtesting engine in `ai-dev-ide/utils/backtest.py`.

The Python class `BacktestEngine` keeps four instance fields
(`initial_capital`, `positions`, `trades`, `equity_curve`); `run_backtest`
iterates over the bars of a price series, queries the strategy for a string
signal at each index, executes all-in BUY / all-out SELL transitions, and
appends one equity/position record per bar; `calculate_metrics` derives the
summary statistics from the accumulated records and trade log.

Shallow embedding choices:
* prices, capital and share counts are rationals (`ℚ`), mirroring the exact
  real-number semantics of the Python float formulas;
* bar timestamps (`data.index[i]`) are integers;
* signals are strings, exactly as the Python strategy returns them;
* the Sharpe ratio involves `sqrt`, so that one metric lives in `ℝ`;
  `pandas` yields `NaN` for the standard deviation of fewer than two
  returns, and `NaN > 0` is false, which is modelled by the explicit
  length condition in `sharpe_ratio` below;
* `calculate_metrics` returns `Option Metrics`: `none` models the empty
  dict `{}` that the Python returns when no positions were recorded.
-/

/-- One bar of the input price series: `data.index[i]` and
`data['close'].iloc[i]`. -/
structure Bar where
  timestamp : ℤ
  close : ℚ
deriving DecidableEq

/-- A trade dict appended by `run_backtest`:
`{'timestamp', 'type', 'price', 'shares'}`. -/
structure Trade where
  timestamp : ℤ
  type : String
  price : ℚ
  shares : ℚ
deriving DecidableEq

/-- A positions dict appended by `run_backtest`:
`{'timestamp', 'price', 'position', 'capital', 'equity'}`.  The spec calls
this an `EquityRecord`. -/
structure EquityRecord where
  timestamp : ℤ
  price : ℚ
  position : ℚ
  capital : ℚ
  equity : ℚ
deriving DecidableEq

/-- The instance state of the Python class `BacktestEngine`. -/
structure BacktestEngine where
  initial_capital : ℚ
  positions : List EquityRecord
  trades : List Trade
  equity_curve : List ℚ
deriving DecidableEq

/-- `BacktestEngine.__init__`: fresh engine with empty accumulation lists
(the Python default for `initial_capital` is `10000`). -/
def freshEngine (initial_capital : ℚ := 10000) : BacktestEngine :=
  ⟨initial_capital, [], [], []⟩

/-- A strategy is called as `strategy(data, i)` and returns a string
signal. -/
def Strategy : Type := List Bar → ℕ → String

/-- The mutable state threaded through the loop body of `run_backtest`:
the local variables `capital` and `position` plus the instance lists the
loop appends to. -/
structure LoopState where
  capital : ℚ
  position : ℚ
  trades : List Trade
  equity_curve : List ℚ
  positions : List EquityRecord
deriving DecidableEq

/-- The default bar used to totalize list indexing; `run_backtest` only
indexes in range, so this value is never consulted by the claims. -/
def dummyBar : Bar := ⟨0, 0⟩

/-- The trade-execution block of the loop body ("Execute trades based on
signal"): the `if signal == 'BUY' and position == 0 / elif signal == 'SELL'
and position > 0` chain. -/
def execSignal (data : List Bar) (strategy : Strategy) (s : LoopState)
    (i : ℕ) : LoopState :=
  let bar := data.getD i dummyBar
  let current_price := bar.close
  let signal := strategy data i
  if signal = "BUY" ∧ s.position = 0 then
    let position := s.capital / current_price
    { s with
      position := position
      capital := 0
      trades := s.trades ++ [⟨bar.timestamp, "BUY", current_price, position⟩] }
  else if signal = "SELL" ∧ 0 < s.position then
    { s with
      capital := s.position * current_price
      trades := s.trades ++ [⟨bar.timestamp, "SELL", current_price, s.position⟩]
      position := 0 }
  else s

/-- One iteration of the `for i in range(len(data))` loop of
`run_backtest`: execute the signal, then compute the equity and append the
equity-curve entry and the position record. -/
def stepBar (data : List Bar) (strategy : Strategy) (s : LoopState) (i : ℕ) :
    LoopState :=
  let bar := data.getD i dummyBar
  let current_price := bar.close
  let s1 := execSignal data strategy s i
  let equity := s1.capital + s1.position * current_price
  { s1 with
    equity_curve := s1.equity_curve ++ [equity]
    positions :=
      s1.positions ++ [⟨bar.timestamp, current_price, s1.position, s1.capital, equity⟩] }

/-- The loop state right before iteration `n` of `run_backtest` on engine
`e` (so `loopState e data strategy data.length` is the final state). -/
def loopState (e : BacktestEngine) (data : List Bar) (strategy : Strategy)
    (n : ℕ) : LoopState :=
  (List.range n).foldl (stepBar data strategy)
    ⟨e.initial_capital, 0, e.trades, e.equity_curve, e.positions⟩

/-- `BacktestEngine.run_backtest`: runs the loop over all bars and stores
the updated lists back into the instance.  The Python method returns
`pd.DataFrame(self.positions)`, i.e. the `positions` field of the result. -/
def run_backtest (e : BacktestEngine) (data : List Bar) (strategy : Strategy) :
    BacktestEngine :=
  let final := loopState e data strategy data.length
  { e with
    trades := final.trades
    equity_curve := final.equity_curve
    positions := final.positions }

/-- The default trade used to totalize list indexing (a Python
out-of-range index would raise; the claims never exercise it). -/
def dummyTrade : Trade := ⟨0, "", 0, 0⟩

/-- Python list indexing with negative-index wraparound, as used by
`self.trades[self.trades.index(t)-1]`. -/
def pyIdx (l : List Trade) (i : ℤ) : Trade :=
  if 0 ≤ i then l.getD i.toNat dummyTrade
  else l.getD (l.length - (-i).toNat) dummyTrade

/-- Python `list.index`: position of the first element equal to `t`. -/
def pyListIndex (t : Trade) (l : List Trade) : ℕ :=
  l.findIdx (fun x => x = t)

/-- `df['equity'].pct_change()` without its leading `NaN` entry:
`r[k] = equity[k] / equity[k-1] - 1` for `k = 1 .. n-1`.  `pandas`'
`mean` and `std` skip the `NaN`, so only these values matter. -/
def pctChange (equity : List ℚ) : List ℚ :=
  (equity.zip equity.tail).map (fun p => p.2 / p.1 - 1)

/-- `Series.mean` over the valid return values. -/
def seriesMean (r : List ℚ) : ℚ := r.sum / r.length

/-- The sample variance (`ddof=1`) underlying `Series.std`. -/
def sampleVar (r : List ℚ) : ℚ :=
  (r.map (fun x => (x - seriesMean r) ^ 2)).sum / ((r.length : ℚ) - 1)

/-- The Sharpe ratio branch of `calculate_metrics`:
`(returns.mean() / returns.std()) * np.sqrt(252)` when
`returns.std() > 0`, else `0`.  With fewer than two valid returns the
`pandas` standard deviation is `NaN` and the comparison is false. -/
noncomputable def sharpeOf (r : List ℚ) : ℝ :=
  if 2 ≤ r.length ∧ 0 < sampleVar r then
    ((seriesMean r : ℝ) / Real.sqrt (sampleVar r)) * Real.sqrt 252
  else 0

/-- `df['equity'].cummax()`: running maximum of the equity column. -/
def cummaxAux (m : ℚ) : List ℚ → List ℚ
  | [] => []
  | x :: xs => max m x :: cummaxAux (max m x) xs

/-- Running maximum of a list, first element taken as the initial peak. -/
def cummax : List ℚ → List ℚ
  | [] => []
  | x :: xs => x :: cummaxAux x xs

/-- `Series.min` of a nonempty column (`0` on the never-consulted empty
case). -/
def seriesMin : List ℚ → ℚ
  | [] => 0
  | x :: xs => xs.foldl min x

/-- The last element of a nonempty column, `df[...].iloc[-1]`. -/
def lastD (l : List ℚ) : ℚ := l.getLastD 0

/-- The metrics dict returned by `calculate_metrics` on a nonempty run.
All fields but the Sharpe ratio are exact rationals. -/
structure Metrics where
  total_return : ℚ
  sharpe_ratio : ℝ
  max_drawdown : ℚ
  win_rate : ℚ
  num_trades : ℕ
  final_equity : ℚ

/-- The filter defining `winning_trades`:
`t['type'] == 'SELL' and (t['price'] - self.trades[self.trades.index(t)-1]['price']) > 0`. -/
def winningTrades (trades : List Trade) : List Trade :=
  trades.filter (fun t =>
    t.type = "SELL" ∧ 0 < t.price - (pyIdx trades ((pyListIndex t trades : ℤ) - 1)).price)

/-- The `win_rate` expression of `calculate_metrics`.  Note the Python
divides by `len(self.trades) / 2` with true division, not by the floored
`num_trades`. -/
def winRateOf (trades : List Trade) : ℚ :=
  if trades ≠ [] then
    (winningTrades trades).length / ((trades.length : ℚ) / 2)
  else 0

/-- `BacktestEngine.calculate_metrics`.  The Python returns the empty
dict `{}` when `self.positions` is empty, modelled as `none`. -/
noncomputable def calculate_metrics (e : BacktestEngine) : Option Metrics :=
  if e.positions = [] then none
  else
    let equity := e.positions.map (·.equity)
    let returns := pctChange equity
    let drawdown := List.zipWith (fun q m => (q - m) / m) equity (cummax equity)
    some
      { total_return := lastD equity / e.initial_capital - 1
        sharpe_ratio := sharpeOf returns
        max_drawdown := seriesMin drawdown
        win_rate := winRateOf e.trades
        num_trades := e.trades.length / 2
        final_equity := lastD equity }

/-! ### Loop unfolding and decomposition lemmas -/

theorem loopState_zero (e : BacktestEngine) (d : List Bar) (g : Strategy) :
    loopState e d g 0 =
      ⟨e.initial_capital, 0, e.trades, e.equity_curve, e.positions⟩ := rfl

theorem loopState_succ (e : BacktestEngine) (d : List Bar) (g : Strategy)
    (n : ℕ) :
    loopState e d g (n + 1) = stepBar d g (loopState e d g n) n := by
  simp [loopState, List.range_succ]

theorem execSignal_positions (d : List Bar) (g : Strategy) (s : LoopState)
    (i : ℕ) : (execSignal d g s i).positions = s.positions := by
  simp only [execSignal]
  split_ifs <;> rfl

theorem execSignal_equity_curve (d : List Bar) (g : Strategy) (s : LoopState)
    (i : ℕ) : (execSignal d g s i).equity_curve = s.equity_curve := by
  simp only [execSignal]
  split_ifs <;> rfl

/-- Full case analysis of the trade-execution block: BUY transition, SELL
transition, or no-op. -/
theorem execSignal_eq (d : List Bar) (g : Strategy) (s : LoopState) (i : ℕ) :
    (g d i = "BUY" ∧ s.position = 0 ∧
      execSignal d g s i =
        { s with
          position := s.capital / (d.getD i dummyBar).close
          capital := 0
          trades := s.trades ++
            [⟨(d.getD i dummyBar).timestamp, "BUY", (d.getD i dummyBar).close,
              s.capital / (d.getD i dummyBar).close⟩] }) ∨
    (g d i = "SELL" ∧ 0 < s.position ∧
      execSignal d g s i =
        { s with
          capital := s.position * (d.getD i dummyBar).close
          trades := s.trades ++
            [⟨(d.getD i dummyBar).timestamp, "SELL", (d.getD i dummyBar).close,
              s.position⟩]
          position := 0 }) ∨
    (¬(g d i = "BUY" ∧ s.position = 0) ∧ ¬(g d i = "SELL" ∧ 0 < s.position) ∧
      execSignal d g s i = s) := by
  simp only [execSignal]
  split_ifs with h1 h2
  · exact Or.inl ⟨h1.1, h1.2, rfl⟩
  · exact Or.inr (Or.inl ⟨h2.1, h2.2, rfl⟩)
  · exact Or.inr (Or.inr ⟨h1, h2, rfl⟩)

theorem stepBar_positions (d : List Bar) (g : Strategy) (s : LoopState)
    (i : ℕ) :
    (stepBar d g s i).positions = s.positions ++
      [⟨(d.getD i dummyBar).timestamp, (d.getD i dummyBar).close,
        (execSignal d g s i).position, (execSignal d g s i).capital,
        (execSignal d g s i).capital +
          (execSignal d g s i).position * (d.getD i dummyBar).close⟩] := by
  simp only [stepBar]
  rw [execSignal_positions]

theorem stepBar_equity_curve (d : List Bar) (g : Strategy) (s : LoopState)
    (i : ℕ) :
    (stepBar d g s i).equity_curve = s.equity_curve ++
      [(execSignal d g s i).capital +
        (execSignal d g s i).position * (d.getD i dummyBar).close] := by
  simp only [stepBar]
  rw [execSignal_equity_curve]

theorem stepBar_capital (d : List Bar) (g : Strategy) (s : LoopState) (i : ℕ) :
    (stepBar d g s i).capital = (execSignal d g s i).capital := rfl

theorem stepBar_position (d : List Bar) (g : Strategy) (s : LoopState)
    (i : ℕ) : (stepBar d g s i).position = (execSignal d g s i).position := rfl

theorem stepBar_trades (d : List Bar) (g : Strategy) (s : LoopState) (i : ℕ) :
    (stepBar d g s i).trades = (execSignal d g s i).trades := rfl

theorem run_backtest_positions (e : BacktestEngine) (d : List Bar)
    (g : Strategy) :
    (run_backtest e d g).positions = (loopState e d g d.length).positions :=
  rfl

theorem run_backtest_trades (e : BacktestEngine) (d : List Bar)
    (g : Strategy) :
    (run_backtest e d g).trades = (loopState e d g d.length).trades := rfl

theorem run_backtest_initial_capital (e : BacktestEngine) (d : List Bar)
    (g : Strategy) :
    (run_backtest e d g).initial_capital = e.initial_capital := rfl

/-- The loop only appends to `self.positions`: after `n` iterations the
list is the engine's previous list followed by `n` new records. -/
theorem loop_positions_decomp (e : BacktestEngine) (d : List Bar)
    (g : Strategy) : ∀ n : ℕ, ∃ l : List EquityRecord,
    l.length = n ∧ (loopState e d g n).positions = e.positions ++ l := by
  intro n
  induction n with
  | zero => exact ⟨[], rfl, by simp [loopState_zero]⟩
  | succ n ih =>
    obtain ⟨l, hlen, hpos⟩ := ih
    refine ⟨l ++ [⟨(d.getD n dummyBar).timestamp, (d.getD n dummyBar).close,
      (execSignal d g (loopState e d g n) n).position,
      (execSignal d g (loopState e d g n) n).capital,
      (execSignal d g (loopState e d g n) n).capital +
        (execSignal d g (loopState e d g n) n).position *
          (d.getD n dummyBar).close⟩], ?_, ?_⟩
    · simp [hlen]
    · rw [loopState_succ, stepBar_positions, hpos, List.append_assoc]

/-- The loop only appends to `self.trades`. -/
theorem loop_trades_decomp (e : BacktestEngine) (d : List Bar)
    (g : Strategy) : ∀ n : ℕ, ∃ l : List Trade,
    (loopState e d g n).trades = e.trades ++ l := by
  intro n
  induction n with
  | zero => exact ⟨[], by simp [loopState_zero]⟩
  | succ n ih =>
    obtain ⟨l, htr⟩ := ih
    rw [loopState_succ, stepBar_trades]
    rcases execSignal_eq d g (loopState e d g n) n with ⟨_, _, h⟩ | ⟨_, _, h⟩ |
      ⟨_, _, h⟩
    · refine ⟨l ++ [⟨(d.getD n dummyBar).timestamp, "BUY",
        (d.getD n dummyBar).close,
        (loopState e d g n).capital / (d.getD n dummyBar).close⟩], ?_⟩
      rw [h]
      simp [htr]
    · refine ⟨l ++ [⟨(d.getD n dummyBar).timestamp, "SELL",
        (d.getD n dummyBar).close, (loopState e d g n).position⟩], ?_⟩
      rw [h]
      simp [htr]
    · exact ⟨l, by rw [h, htr]⟩

/-- Number of records after `n` iterations. -/
theorem loop_positions_length (e : BacktestEngine) (d : List Bar)
    (g : Strategy) (n : ℕ) :
    (loopState e d g n).positions.length = e.positions.length + n := by
  obtain ⟨l, hlen, hpos⟩ := loop_positions_decomp e d g n
  rw [hpos, List.length_append, hlen]

/-- The new records' timestamp/price columns are exactly the processed
bars' timestamp/close columns, in order. -/
theorem loop_positions_map (e : BacktestEngine) (d : List Bar)
    (g : Strategy) : ∀ n : ℕ, n ≤ d.length →
    (loopState e d g n).positions.map (fun r => (r.timestamp, r.price)) =
      e.positions.map (fun r => (r.timestamp, r.price)) ++
        (d.take n).map (fun b => (b.timestamp, b.close)) := by
  intro n
  induction n with
  | zero => simp [loopState_zero]
  | succ n ih =>
    intro hn
    have hn' : n < d.length := hn
    rw [loopState_succ, stepBar_positions, List.map_append,
      ih (le_of_lt hn')]
    have ht : d.take (n + 1) = d.take n ++ [d[n]] :=
      (List.take_concat_get' d n hn').symm
    rw [ht, List.map_append, List.append_assoc]
    simp [List.getD_eq_getElem d dummyBar hn', List.getElem?_eq_getElem hn']

/-- The flatness invariant: the loop state and every recorded position
satisfy `capital == 0 or position == 0`. -/
theorem loop_flat (c : ℚ) (d : List Bar) (g : Strategy) : ∀ n : ℕ,
    ((loopState (freshEngine c) d g n).capital = 0 ∨
      (loopState (freshEngine c) d g n).position = 0) ∧
    (∀ r ∈ (loopState (freshEngine c) d g n).positions,
      r.capital = 0 ∨ r.position = 0) := by
  intro n
  induction n with
  | zero => exact ⟨Or.inr rfl, by simp [loopState_zero, freshEngine]⟩
  | succ n ih =>
    obtain ⟨hst, hrec⟩ := ih
    have hstep :
        (execSignal d g (loopState (freshEngine c) d g n) n).capital = 0 ∨
        (execSignal d g (loopState (freshEngine c) d g n) n).position = 0 := by
      rcases execSignal_eq d g (loopState (freshEngine c) d g n) n with
        ⟨_, _, h⟩ | ⟨_, _, h⟩ | ⟨_, _, h⟩
      · rw [h]
        exact Or.inl rfl
      · rw [h]
        exact Or.inr rfl
      · rw [h]
        exact hst
    refine ⟨?_, ?_⟩
    · rw [loopState_succ, stepBar_capital, stepBar_position]
      exact hstep
    · rw [loopState_succ, stepBar_positions]
      intro r hr
      rcases List.mem_append.mp hr with h | h
      · exact hrec r h
      · have := List.mem_singleton.mp h
        subst this
        exact hstep

/-- The alternation property of a trade log: trades at even positions are
BUYs, trades at odd positions are SELLs (so a nonempty log starts with a
BUY and strictly alternates BUY, SELL, BUY, SELL, ...). -/
def altTrades (l : List Trade) : Prop :=
  ∀ i : ℕ, i < l.length →
    (l.getD i dummyTrade).type = if i % 2 = 0 then "BUY" else "SELL"

theorem altTrades_append_one (l : List Trade) (t : Trade) (h : altTrades l)
    (ht : t.type = if l.length % 2 = 0 then "BUY" else "SELL") :
    altTrades (l ++ [t]) := by
  intro i hi
  rw [List.length_append, List.length_singleton] at hi
  rcases Nat.lt_succ_iff_lt_or_eq.mp hi with hlt | heq
  · rw [List.getD_append _ _ _ _ hlt]
    exact h i hlt
  · subst heq
    rw [List.getD_append_right _ _ _ _ (le_refl _), Nat.sub_self]
    exact ht

/-- The alternation invariant of the simulator loop, for positive initial
capital and positive close prices: a flat state has positive capital and
an even trade count, an invested state has zero capital and an odd trade
count, and the trade log alternates BUY, SELL, BUY, SELL, ... -/
theorem loop_alternation (c : ℚ) (d : List Bar) (g : Strategy)
    (hc : 0 < c) (hp : ∀ b ∈ d, 0 < b.close) : ∀ n : ℕ, n ≤ d.length →
    (((loopState (freshEngine c) d g n).position = 0 ∧
      0 < (loopState (freshEngine c) d g n).capital ∧
      (loopState (freshEngine c) d g n).trades.length % 2 = 0) ∨
     (0 < (loopState (freshEngine c) d g n).position ∧
      (loopState (freshEngine c) d g n).capital = 0 ∧
      (loopState (freshEngine c) d g n).trades.length % 2 = 1)) ∧
    altTrades (loopState (freshEngine c) d g n).trades := by
  intro n
  induction n with
  | zero =>
    intro _
    refine ⟨Or.inl ⟨rfl, hc, rfl⟩, ?_⟩
    intro i hi
    simp [loopState_zero, freshEngine] at hi
  | succ n ih =>
    intro hn
    have hn' : n < d.length := hn
    obtain ⟨hst, halt⟩ := ih (le_of_lt hn')
    have hprice : 0 < (d.getD n dummyBar).close := by
      rw [List.getD_eq_getElem d dummyBar hn']
      exact hp _ (List.getElem_mem hn')
    rw [loopState_succ, stepBar_capital, stepBar_position, stepBar_trades]
    rcases execSignal_eq d g (loopState (freshEngine c) d g n) n with
      ⟨hsig, hpos, h⟩ | ⟨hsig, hpos, h⟩ | ⟨h1, h2, h⟩
    · rcases hst with ⟨_, hcap, heven⟩ | ⟨hposgt, _, _⟩
      · rw [h]
        refine ⟨Or.inr ⟨div_pos hcap hprice, rfl, ?_⟩, ?_⟩
        · simp only [List.length_append, List.length_singleton]
          omega
        · refine altTrades_append_one _ _ halt ?_
          simp [heven]
      · exact absurd hpos (ne_of_gt hposgt)
    · rcases hst with ⟨hp0, _, _⟩ | ⟨_, hcap0, hodd⟩
      · exact absurd hp0 (ne_of_gt hpos)
      · rw [h]
        refine ⟨Or.inl ⟨rfl, mul_pos hpos hprice, ?_⟩, ?_⟩
        · simp only [List.length_append, List.length_singleton]
          omega
        · refine altTrades_append_one _ _ halt ?_
          simp [hodd]
    · rw [h]
      exact ⟨hst, halt⟩

/-- If the strategy never answers BUY, the loop never trades, the capital
never moves, and every recorded equity equals the initial capital. -/
theorem loop_noBuy (c : ℚ) (d : List Bar) (g : Strategy)
    (hg : ∀ i : ℕ, i < d.length → g d i ≠ "BUY") : ∀ n : ℕ, n ≤ d.length →
    (loopState (freshEngine c) d g n).position = 0 ∧
    (loopState (freshEngine c) d g n).capital = c ∧
    (loopState (freshEngine c) d g n).trades = [] ∧
    (∀ r ∈ (loopState (freshEngine c) d g n).positions, r.equity = c) := by
  intro n
  induction n with
  | zero =>
    intro _
    refine ⟨rfl, rfl, rfl, ?_⟩
    intro r hr
    simp [loopState_zero, freshEngine] at hr
  | succ n ih =>
    intro hn
    have hn' : n < d.length := hn
    obtain ⟨hpos, hcap, htr, hrec⟩ := ih (le_of_lt hn')
    have hexec : execSignal d g (loopState (freshEngine c) d g n) n =
        loopState (freshEngine c) d g n := by
      rcases execSignal_eq d g (loopState (freshEngine c) d g n) n with
        ⟨hs, _, _⟩ | ⟨_, hp0, _⟩ | ⟨_, _, h⟩
      · exact absurd hs (hg n hn')
      · rw [hpos] at hp0
        exact absurd hp0 (lt_irrefl 0)
      · exact h
    refine ⟨?_, ?_, ?_, ?_⟩
    · rw [loopState_succ, stepBar_position, hexec]
      exact hpos
    · rw [loopState_succ, stepBar_capital, hexec]
      exact hcap
    · rw [loopState_succ, stepBar_trades, hexec]
      exact htr
    · rw [loopState_succ, stepBar_positions, hexec]
      intro r hr
      rcases List.mem_append.mp hr with h | h
      · exact hrec r h
      · have := List.mem_singleton.mp h
        subst this
        simp [hpos, hcap]

/-- The fallback the source actually implements for unknown signals:
anything other than BUY or SELL is replaced by HOLD. -/
def normalizeSignal (s : String) : String :=
  if s = "BUY" then "BUY" else if s = "SELL" then "SELL" else "HOLD"

theorem normalizeSignal_eq_buy (s : String) :
    (normalizeSignal s = "BUY") ↔ s = "BUY" := by
  unfold normalizeSignal
  split_ifs with h1 h2
  · simp [h1]
  · subst h2
    simp
  · simp [h1]

theorem normalizeSignal_eq_sell (s : String) :
    (normalizeSignal s = "SELL") ↔ s = "SELL" := by
  unfold normalizeSignal
  split_ifs with h1 h2
  · subst h1
    simp
  · simp [h2]
  · simp [h2]

/-- The loop body only consults whether the signal string equals "BUY" or
"SELL"; two strategies agreeing on those two tests step identically. -/
theorem execSignal_congr (d : List Bar) (g1 g2 : Strategy) (s : LoopState)
    (i : ℕ) (hB : (g1 d i = "BUY") ↔ (g2 d i = "BUY"))
    (hS : (g1 d i = "SELL") ↔ (g2 d i = "SELL")) :
    execSignal d g1 s i = execSignal d g2 s i := by
  simp only [execSignal]
  exact if_congr (and_congr_left fun _ => hB) rfl
    (if_congr (and_congr_left fun _ => hS) rfl rfl)

theorem stepBar_congr (d : List Bar) (g1 g2 : Strategy) (s : LoopState)
    (i : ℕ) (hB : (g1 d i = "BUY") ↔ (g2 d i = "BUY"))
    (hS : (g1 d i = "SELL") ↔ (g2 d i = "SELL")) :
    stepBar d g1 s i = stepBar d g2 s i := by
  simp only [stepBar]
  rw [execSignal_congr d g1 g2 s i hB hS]

theorem loopState_congr (e : BacktestEngine) (d : List Bar)
    (g1 g2 : Strategy)
    (hB : ∀ i : ℕ, (g1 d i = "BUY") ↔ (g2 d i = "BUY"))
    (hS : ∀ i : ℕ, (g1 d i = "SELL") ↔ (g2 d i = "SELL")) :
    ∀ n : ℕ, loopState e d g1 n = loopState e d g2 n := by
  intro n
  induction n with
  | zero => rfl
  | succ n ih =>
    rw [loopState_succ, loopState_succ, ih,
      stepBar_congr d g1 g2 _ n (hB n) (hS n)]

/-- On a one-bar series with a nonzero close, the single recorded equity
equals the initial capital, whatever the strategy answers. -/
theorem run_single_bar_equity (c : ℚ) (b : Bar) (g : Strategy)
    (hp : b.close ≠ 0) :
    (run_backtest (freshEngine c) [b] g).positions.map (fun r => r.equity) =
      [c] := by
  rw [run_backtest_positions]
  show (loopState (freshEngine c) [b] g 1).positions.map (fun r => r.equity) =
    [c]
  rw [loopState_succ, stepBar_positions]
  have h0 : (loopState (freshEngine c) [b] g 0).positions = [] := rfl
  rw [h0, List.nil_append, List.map_singleton]
  rcases execSignal_eq [b] g (loopState (freshEngine c) [b] g 0) 0 with
    ⟨_, _, h⟩ | ⟨_, hp0, _⟩ | ⟨_, _, h⟩
  · rw [h]
    show [(0 : ℚ) + c / b.close * b.close] = [c]
    rw [zero_add, div_mul_cancel₀ _ hp]
  · have hz : (loopState (freshEngine c) [b] g 0).position = 0 := rfl
    rw [hz] at hp0
    exact absurd hp0 (lt_irrefl 0)
  · rw [h]
    show [c + (0 : ℚ) * b.close] = [c]
    rw [zero_mul, add_zero]

/-- The metrics of an engine whose single recorded equity equals its
initial capital: zero total return, zero Sharpe ratio (only one record,
no valid returns), zero maximum drawdown. -/
theorem calculate_metrics_single (e : BacktestEngine) (c : ℚ) (hc : c ≠ 0)
    (hinit : e.initial_capital = c)
    (heq : e.positions.map (fun r => r.equity) = [c]) :
    (calculate_metrics e).map Metrics.total_return = some 0 ∧
    (calculate_metrics e).map Metrics.sharpe_ratio = some 0 ∧
    (calculate_metrics e).map Metrics.max_drawdown = some 0 := by
  have hne : e.positions ≠ [] := by
    intro h
    rw [h] at heq
    exact absurd heq (by simp)
  simp only [calculate_metrics, if_neg hne, heq, hinit, Option.map_some']
  refine ⟨?_, ?_, ?_⟩
  · show some (lastD [c] / c - 1) = some 0
    rw [show lastD [c] = c from rfl, div_self hc, sub_self]
  · show some (sharpeOf (pctChange [c])) = some 0
    rw [show pctChange [c] = [] from rfl]
    simp [sharpeOf]
  · show some (seriesMin (List.zipWith (fun q m => (q - m) / m) [c]
      (cummax [c]))) = some 0
    rw [show cummax [c] = [c] from rfl]
    simp [seriesMin]

/-! ### Claim theorems -/

/-- C1: for every bar sequence, strategy and positive initial capital,
every `EquityRecord` produced by `run_backtest` satisfies
`capital == 0 or position == 0`: the two fields are never both
positive at any bar. -/
theorem spec_C1 (data : List Bar) (strategy : Strategy) (c : ℚ)
    (_hc : 0 < c) :
    ∀ r ∈ (run_backtest (freshEngine c) data strategy).positions,
      r.capital = 0 ∨ r.position = 0 := by
  intro r hr
  rw [run_backtest_positions] at hr
  exact (loop_flat c data strategy data.length).2 r hr

/-- C2: for every bar sequence with positive close prices, every strategy
and positive initial capital, the trade log of a fresh run strictly
alternates BUY, SELL, BUY, SELL, ... starting with BUY (`altTrades`): the
trade at every even index is a BUY and at every odd index a SELL, so no
SELL is recorded while flat and no BUY while invested. -/
theorem spec_C2 (data : List Bar) (strategy : Strategy) (c : ℚ)
    (hc : 0 < c) (hp : ∀ b ∈ data, 0 < b.close) :
    altTrades (run_backtest (freshEngine c) data strategy).trades := by
  rw [run_backtest_trades]
  exact (loop_alternation c data strategy hc hp data.length (le_refl _)).2

/-- C3: a fresh run returns exactly one `EquityRecord` per input bar, in
the same order as the bars (the timestamp/price columns coincide with the
bars' timestamp/close columns), so the output length equals the input
length. -/
theorem spec_C3 (data : List Bar) (strategy : Strategy) (c : ℚ) :
    (run_backtest (freshEngine c) data strategy).positions.length =
      data.length ∧
    (run_backtest (freshEngine c) data strategy).positions.map
        (fun r => (r.timestamp, r.price)) =
      data.map (fun b => (b.timestamp, b.close)) := by
  constructor
  · rw [run_backtest_positions, loop_positions_length]
    simp [freshEngine]
  · rw [run_backtest_positions,
      loop_positions_map _ _ _ data.length (le_refl _)]
    simp [freshEngine]

/-- C5 (amended): on an empty run (zero bars processed) `calculate_metrics`
returns the empty dict (`none`), not a dict of neutral metric values, and
it does not raise. -/
theorem spec_C5 (c : ℚ) (strategy : Strategy) :
    calculate_metrics (run_backtest (freshEngine c) [] strategy) = none := by
  have h : (run_backtest (freshEngine c) [] strategy).positions = [] := rfl
  simp [calculate_metrics, h]

/-- C5 counterexample: with no bars processed, `calculate_metrics` does
not return the neutral metrics dict (`total_return = 0`, `sharpe = 0`,
`max_drawdown = 0`, `win_rate = 0`, `num_trades = 0`,
`final_equity = initial_capital`) that the claim states; it returns the
empty dict (`none`). -/
theorem spec_C5_cex :
    calculate_metrics
        (run_backtest (freshEngine 1000) [] (fun _ _ => "HOLD")) = none ∧
    calculate_metrics
        (run_backtest (freshEngine 1000) [] (fun _ _ => "HOLD")) ≠
      some ⟨0, 0, 0, 0, 0, 1000⟩ := by
  have hp : (run_backtest (freshEngine 1000) []
      (fun _ _ => "HOLD")).positions = [] := rfl
  have h : calculate_metrics
      (run_backtest (freshEngine 1000) [] (fun _ _ => "HOLD")) = none := by
    simp [calculate_metrics, hp]
  exact ⟨h, by rw [h]; simp⟩

/-- C6 (amended): `run_backtest` silently treats any signal other than
"BUY" and "SELL" exactly like "HOLD" — replacing every signal by its
HOLD-normalization changes nothing about the run.  There is no fault
value and no propagation for unrecognized signals (only an exception
raised inside the strategy itself would escape, as the loop has no
handler). -/
theorem spec_C6 (e : BacktestEngine) (data : List Bar)
    (strategy : Strategy) :
    run_backtest e data (fun dd i => normalizeSignal (strategy dd i)) =
      run_backtest e data strategy := by
  unfold run_backtest
  rw [loopState_congr e data _ strategy
    (fun i => normalizeSignal_eq_buy (strategy data i))
    (fun i => normalizeSignal_eq_sell (strategy data i)) data.length]

/-- C6 counterexample: a strategy returning the unrecognized signal "FOO"
on every bar is silently treated as all-HOLD: the run completes normally,
produces exactly the same engine state as the all-HOLD strategy, and
records no trade — no `StrategyFault` reaches the caller. -/
theorem spec_C6_cex :
    run_backtest (freshEngine 1000) [⟨0, 100⟩, ⟨1, 110⟩]
        (fun _ _ => "FOO") =
      run_backtest (freshEngine 1000) [⟨0, 100⟩, ⟨1, 110⟩]
        (fun _ _ => "HOLD") ∧
    (run_backtest (freshEngine 1000) [⟨0, 100⟩, ⟨1, 110⟩]
        (fun _ _ => "FOO")).trades = [] := by
  constructor <;>
    · simp +decide [run_backtest, loopState, stepBar, execSignal,
        freshEngine, dummyBar, List.range_succ]

/-- C8 (amended): on every single-bar series whose close price is
positive, every strategy and positive initial capital,
`calculate_metrics` after a fresh run returns `total_return = 0`,
`sharpe_ratio = 0` and `max_drawdown = 0`.  (At a close price of 0 a BUY
leaves a zero equity and `total_return = -1`, see the counterexample.) -/
theorem spec_C8 (b : Bar) (strategy : Strategy) (c : ℚ) (hc : 0 < c)
    (hp : 0 < b.close) :
    (calculate_metrics (run_backtest (freshEngine c) [b] strategy)).map
        Metrics.total_return = some 0 ∧
    (calculate_metrics (run_backtest (freshEngine c) [b] strategy)).map
        Metrics.sharpe_ratio = some 0 ∧
    (calculate_metrics (run_backtest (freshEngine c) [b] strategy)).map
        Metrics.max_drawdown = some 0 := by
  refine calculate_metrics_single _ c (ne_of_gt hc) ?_ ?_
  · exact run_backtest_initial_capital _ _ _
  · exact run_single_bar_equity c b strategy (ne_of_gt hp)

/-- C9: if the strategy never returns BUY, a fresh run records no trade
and every `EquityRecord` has equity equal to the initial capital. -/
theorem spec_C9 (data : List Bar) (strategy : Strategy) (c : ℚ)
    (hg : ∀ i : ℕ, i < data.length → strategy data i ≠ "BUY") :
    (run_backtest (freshEngine c) data strategy).trades = [] ∧
    ∀ r ∈ (run_backtest (freshEngine c) data strategy).positions,
      r.equity = c := by
  obtain ⟨_, _, htr, hrec⟩ :=
    loop_noBuy c data strategy hg data.length (le_refl _)
  refine ⟨?_, ?_⟩
  · rw [run_backtest_trades]
    exact htr
  · rw [run_backtest_positions]
    exact hrec

/-- C10: `run_backtest` never resets the accumulated engine state: after
a fresh run over `d1` and a second run over `d2` on the same engine, the
record list has length `d1.length + d2.length`, its first `d1.length`
entries are exactly the first run's records, and the first run's trades
remain a prefix of the trade log. -/
theorem spec_C10 (c : ℚ) (d1 d2 : List Bar) (g1 g2 : Strategy) :
    (run_backtest (run_backtest (freshEngine c) d1 g1) d2 g2).positions.length
        = d1.length + d2.length ∧
    (run_backtest (run_backtest (freshEngine c) d1 g1) d2 g2).positions.take
        d1.length = (run_backtest (freshEngine c) d1 g1).positions ∧
    (run_backtest (run_backtest (freshEngine c) d1 g1) d2 g2).trades.take
        (run_backtest (freshEngine c) d1 g1).trades.length =
      (run_backtest (freshEngine c) d1 g1).trades := by
  have hlen1 : (run_backtest (freshEngine c) d1 g1).positions.length =
      d1.length := by
    rw [run_backtest_positions, loop_positions_length]
    simp [freshEngine]
  obtain ⟨l, hl, hpos⟩ :=
    loop_positions_decomp (run_backtest (freshEngine c) d1 g1) d2 g2 d2.length
  obtain ⟨t, htr⟩ :=
    loop_trades_decomp (run_backtest (freshEngine c) d1 g1) d2 g2 d2.length
  refine ⟨?_, ?_, ?_⟩
  · rw [run_backtest_positions, loop_positions_length, hlen1]
  · rw [run_backtest_positions, hpos, ← hlen1, List.take_left]
  · have htr2 : (run_backtest (run_backtest (freshEngine c) d1 g1) d2
        g2).trades = (run_backtest (freshEngine c) d1 g1).trades ++ t := htr
    rw [htr2, List.take_left]

/-- The concrete scenario of the spec: four bars at close prices 100,
110, 90, 120. -/
def scenarioBars : List Bar := [⟨0, 100⟩, ⟨1, 110⟩, ⟨2, 90⟩, ⟨3, 120⟩]

/-- BUY at t0, HOLD at t1, SELL at t2, HOLD at t3. -/
def scenarioStrategy : Strategy := fun _ i =>
  if i = 0 then "BUY" else if i = 2 then "SELL" else "HOLD"

/-- C7: on bars (t0,100), (t1,110), (t2,90), (t3,120) with initial
capital 1000 and the BUY/HOLD/SELL/HOLD strategy, the run records exactly
the trades BUY@100 (10 shares) and SELL@90 (10 shares) and the equity
sequence 1000, 1100, 900, 900, and the metrics are
`total_return = -0.10`, `max_drawdown = (900 - 1100)/1100`,
`num_trades = 1` and `win_rate = 0`. -/
theorem spec_C7 :
    (run_backtest (freshEngine 1000) scenarioBars scenarioStrategy).trades =
      [⟨0, "BUY", 100, 10⟩, ⟨2, "SELL", 90, 10⟩] ∧
    (run_backtest (freshEngine 1000) scenarioBars
      scenarioStrategy).equity_curve = [1000, 1100, 900, 900] ∧
    (calculate_metrics (run_backtest (freshEngine 1000) scenarioBars
      scenarioStrategy)).map Metrics.total_return = some (-(1 / 10)) ∧
    (calculate_metrics (run_backtest (freshEngine 1000) scenarioBars
      scenarioStrategy)).map Metrics.max_drawdown =
        some ((900 - 1100) / 1100) ∧
    (calculate_metrics (run_backtest (freshEngine 1000) scenarioBars
      scenarioStrategy)).map Metrics.num_trades = some 1 ∧
    (calculate_metrics (run_backtest (freshEngine 1000) scenarioBars
      scenarioStrategy)).map Metrics.win_rate = some 0 := by
  have hrun : run_backtest (freshEngine 1000) scenarioBars scenarioStrategy =
      ⟨1000,
       [⟨0, 100, 10, 0, 1000⟩, ⟨1, 110, 10, 0, 1100⟩, ⟨2, 90, 0, 900, 900⟩,
        ⟨3, 120, 0, 900, 900⟩],
       [⟨0, "BUY", 100, 10⟩, ⟨2, "SELL", 90, 10⟩],
       [1000, 1100, 900, 900]⟩ := by
    simp +decide [run_backtest, loopState, stepBar, execSignal, freshEngine,
      dummyBar, scenarioBars, scenarioStrategy, List.range_succ]
    norm_num
  rw [hrun]
  refine ⟨rfl, rfl, ?_, ?_, ?_, ?_⟩ <;>
    simp +decide [calculate_metrics, lastD, pctChange, cummax, cummaxAux,
      seriesMin, winRateOf, winningTrades, pyListIndex, pyIdx, dummyTrade] <;>
    norm_num

/-- Three bars whose BUY / SELL / BUY run leaves an odd trade log: the
failing input for the claimed win-rate formula. -/
def oddTradeBars : List Bar := [⟨0, 100⟩, ⟨1, 110⟩, ⟨2, 100⟩]

/-- BUY at index 0, SELL at index 1, BUY at index 2. -/
def oddTradeStrategy : Strategy := fun _ i => if i = 1 then "SELL" else "BUY"

/-- C4, evaluated at the failing input: the run records the three trades
BUY@100, SELL@110, BUY@100, so `num_trades = floor(3/2) = 1` and the one
completed round trip is a win, giving `wins / num_trades = 1`; but the
code divides by `len(trades)/2` with true division and returns
`win_rate = 1/(3/2) = 2/3 ≠ 1`. -/
theorem spec_C4_eval :
    (calculate_metrics (run_backtest (freshEngine 1000) oddTradeBars
      oddTradeStrategy)).map Metrics.win_rate = some (2 / 3) ∧
    (calculate_metrics (run_backtest (freshEngine 1000) oddTradeBars
      oddTradeStrategy)).map Metrics.num_trades = some 1 ∧
    ((2 : ℚ) / 3 ≠ 1) := by
  have hrun : run_backtest (freshEngine 1000) oddTradeBars oddTradeStrategy =
      ⟨1000,
       [⟨0, 100, 10, 0, 1000⟩, ⟨1, 110, 0, 1100, 1100⟩,
        ⟨2, 100, 11, 0, 1100⟩],
       [⟨0, "BUY", 100, 10⟩, ⟨1, "SELL", 110, 10⟩, ⟨2, "BUY", 100, 11⟩],
       [1000, 1100, 1100]⟩ := by
    simp +decide [run_backtest, loopState, stepBar, execSignal, freshEngine,
      dummyBar, oddTradeBars, oddTradeStrategy, List.range_succ]
    norm_num
  rw [hrun]
  refine ⟨?_, ?_, by norm_num⟩ <;>
    simp +decide [calculate_metrics, lastD, pctChange, cummax, cummaxAux,
      seriesMin, winRateOf, winningTrades, pyListIndex, pyIdx, dummyTrade]

/-- Witness for C1: the record of a concrete one-bar HOLD run with
initial capital 1000 satisfies the flatness disjunction. -/
theorem spec_C1_witness :
    (⟨0, 100, 0, 1000, 1000⟩ : EquityRecord).capital = 0 ∨
    (⟨0, 100, 0, 1000, 1000⟩ : EquityRecord).position = 0 :=
  spec_C1 [⟨0, 100⟩] (fun _ _ => "HOLD") 1000 (by norm_num)
    ⟨0, 100, 0, 1000, 1000⟩ (by
      simp +decide [run_backtest, loopState, stepBar, execSignal,
        freshEngine, dummyBar, List.range_succ])

/-- Two bars with positive closes used by the alternation witness. -/
def witnessBars : List Bar := [⟨0, 100⟩, ⟨1, 110⟩]

/-- BUY on the first bar, SELL afterwards. -/
def witnessStrategy : Strategy := fun _ i => if i = 0 then "BUY" else "SELL"

/-- Witness for C2: in the concrete BUY/SELL run the trade at index 0 has
the type the alternation predicate demands (a BUY). -/
theorem spec_C2_witness :
    ((run_backtest (freshEngine 1000) witnessBars
      witnessStrategy).trades.getD 0 dummyTrade).type =
      if 0 % 2 = 0 then "BUY" else "SELL" :=
  spec_C2 witnessBars witnessStrategy 1000 (by norm_num)
    (by
      intro b hb
      simp [witnessBars] at hb
      rcases hb with rfl | rfl <;> norm_num)
    0 (by
      simp +decide [run_backtest, loopState, stepBar, execSignal,
        freshEngine, dummyBar, witnessBars, witnessStrategy,
        List.range_succ])

/-- Witness for C8: the concrete one-bar HOLD run at price 100 with
initial capital 1000 yields the three neutral metrics. -/
theorem spec_C8_witness :
    (calculate_metrics (run_backtest (freshEngine 1000) [⟨0, 100⟩]
      (fun _ _ => "HOLD"))).map Metrics.total_return = some 0 ∧
    (calculate_metrics (run_backtest (freshEngine 1000) [⟨0, 100⟩]
      (fun _ _ => "HOLD"))).map Metrics.sharpe_ratio = some 0 ∧
    (calculate_metrics (run_backtest (freshEngine 1000) [⟨0, 100⟩]
      (fun _ _ => "HOLD"))).map Metrics.max_drawdown = some 0 :=
  spec_C8 ⟨0, 100⟩ (fun _ _ => "HOLD") 1000 (by norm_num) (by norm_num)

/-- Witness for C9: the concrete two-bar all-HOLD run records no trade,
and its second record keeps the equity at the initial capital 1000. -/
theorem spec_C9_witness :
    (run_backtest (freshEngine 1000) [⟨0, 100⟩, ⟨1, 110⟩]
      (fun _ _ => "HOLD")).trades = [] ∧
    (⟨1, 110, 0, 1000, 1000⟩ : EquityRecord).equity = 1000 :=
  ⟨(spec_C9 [⟨0, 100⟩, ⟨1, 110⟩] (fun _ _ => "HOLD") 1000
      (by intro i _; show ("HOLD" : String) ≠ "BUY"; decide)).1,
   (spec_C9 [⟨0, 100⟩, ⟨1, 110⟩] (fun _ _ => "HOLD") 1000
      (by intro i _; show ("HOLD" : String) ≠ "BUY"; decide)).2 ⟨1, 110, 0, 1000, 1000⟩ (by
        simp +decide [run_backtest, loopState, stepBar, execSignal,
          freshEngine, dummyBar, List.range_succ])⟩

/-- Four bars, one of them with close price 0. -/
def zeroPriceBars : List Bar := [⟨0, 100⟩, ⟨1, 0⟩, ⟨2, 50⟩, ⟨3, 50⟩]

/-- BUY everywhere except a SELL at index 1. -/
def zeroPriceStrategy : Strategy := fun _ i => if i = 1 then "SELL" else "BUY"

/-- C2 counterexample: over all bar sequences the claim fails as stated.
Selling at a bar whose close price is 0 zeroes both capital and position,
after which every BUY signal appends a BUY trade with 0 shares (no
division by zero occurs, the run completes), so the default fresh engine
records the log BUY, SELL, BUY, BUY — two consecutive BUYs. -/
theorem spec_C2_cex :
    ¬ altTrades (run_backtest (freshEngine) zeroPriceBars
      zeroPriceStrategy).trades := by
  have hrun : (run_backtest (freshEngine) zeroPriceBars
      zeroPriceStrategy).trades =
      [⟨0, "BUY", 100, 100⟩, ⟨1, "SELL", 0, 100⟩, ⟨2, "BUY", 50, 0⟩,
       ⟨3, "BUY", 50, 0⟩] := by
    simp +decide [run_backtest, loopState, stepBar, execSignal, freshEngine,
      dummyBar, zeroPriceBars, zeroPriceStrategy, List.range_succ]
    norm_num
  intro h
  have h3 := h 3 (by rw [hrun]; decide)
  rw [hrun] at h3
  simp +decide [List.getD] at h3

/-- A BUY at the only bar, whose close price is 0. -/
def zeroCloseStrategy : Strategy := fun _ _ => "BUY"

/-- C8 counterexample: the claim fails on a single-bar series whose close
price is 0.  The BUY divides the capital by the 0 close (the rational
model totalizes `1000 / 0` to `0`; the float code produces `inf` shares
and a `nan` equity), so the single recorded equity is 0 and
`total_return = 0 / 1000 - 1 = -1`, not the claimed 0. -/
theorem spec_C8_cex :
    (calculate_metrics (run_backtest (freshEngine 1000) [⟨0, 0⟩]
      zeroCloseStrategy)).map Metrics.total_return = some (-1) ∧
    ((-1 : ℚ) ≠ 0) := by
  have hrun : run_backtest (freshEngine 1000) [⟨0, 0⟩] zeroCloseStrategy =
      ⟨1000, [⟨0, 0, 0, 0, 0⟩], [⟨0, "BUY", 0, 0⟩], [0]⟩ := by
    simp +decide [run_backtest, loopState, stepBar, execSignal, freshEngine,
      dummyBar, zeroCloseStrategy, List.range_succ]
  rw [hrun]
  refine ⟨?_, by norm_num⟩
  simp +decide [calculate_metrics, lastD]
